import Mathlib

/-!
Shallow embedding of `src/python/tvm/build.py`: the `BuildConfig`
configuration-scope machinery, the `get_binds` argument-binding resolver,
the `lower` pipeline and the `build` orchestrator.

Modelling conventions:
* Python objects with identity (`BuildConfig` instances) live in a heap
  (`World.heap`, indexed by allocation order); the class attribute
  `BuildConfig.current` is the `cur` index of the world.
* Configuration dictionaries (`_attr`, `defaults`, `kwargs`) are
  association lists with first-match lookup; Python's `dict.update`
  (new entries shadow old ones) is modelled by prepending the updating
  entries, which is lookup-equivalent.
* The external collaborator passes (`ir_pass.*`, `schedule.*`,
  `api.decl_buffer`, `codegen.build_module`) are out of scope per the
  module docstring; each is a symbolic constructor recording exactly the
  arguments the orchestrator hands it.  `SplitHostDevice` and
  `module.enabled`, whose results drive control flow, are taken as
  function parameters of `build`.
* Exceptions (`ValueError`, `AssertionError`, `KeyError`) are `Except
  String`; the string carries the message of the `raise`/`assert`.
-/

namespace TVMBuild

/-- A configuration option value: the recognized options hold Python ints
or bools. -/
inductive CVal where
  | int (n : Int)
  | bool (b : Bool)
deriving DecidableEq, Repr

/-- Python truthiness of a configuration value
(`if cfg.detect_global_barrier:`). -/
def CVal.truthy : CVal → Bool
  | .int n => n != 0
  | .bool b => b

/-- A Python dict of configuration options, as an association list with
first-match lookup. -/
abbrev Attrs := List (String × CVal)

/-- `BuildConfig.defaults` from the source: the recognized option names
with their system defaults. -/
def defaults : Attrs :=
  [("auto_unroll_max_step", .int 0),
   ("auto_unroll_min_depth", .int 1),
   ("unroll_explicit", .bool true),
   ("detect_global_barrier", .bool true)]

/-- A `BuildConfig` instance: its `_attr` dict and its `_old_scope`
field (a reference into the heap, `none` for Python `None`). -/
structure ConfigObj where
  attr : Attrs
  oldScope : Option Nat
deriving DecidableEq, Repr

/-- The default heap value used for out-of-range reads (never hit on the
worlds the theorems quantify over). -/
def cdef : ConfigObj := ⟨[], none⟩

/-- `BuildConfig.__getattr__`: an option set on the instance wins,
otherwise fall back to `BuildConfig.defaults` (a missing name there is a
`KeyError`, modelled as `none`). -/
def getAttr (c : ConfigObj) (name : String) : Option CVal :=
  match List.lookup name c.attr with
  | some v => some v
  | none => List.lookup name defaults

/-- The first keyword argument whose name is not in
`BuildConfig.defaults`, as scanned by `BuildConfig.__init__`. -/
def findInvalidKey : Attrs → Option String
  | [] => none
  | (k, _) :: rest =>
    if (List.lookup k defaults).isSome then findInvalidKey rest else some k

/-- `BuildConfig.__init__`: validate every supplied option name against
`BuildConfig.defaults`, raising `ValueError` otherwise; store the kwargs
as `_attr` and initialize `_old_scope` to `None`. -/
def mkBuildConfig (kwargs : Attrs) : Except String ConfigObj :=
  match findInvalidKey kwargs with
  | some k => .error ("invalid argument " ++ k)
  | none => .ok ⟨kwargs, none⟩

/-- The process-wide state: the heap of `BuildConfig` objects and the
index of `BuildConfig.current`. -/
structure World where
  heap : List ConfigObj
  cur : Nat
deriving DecidableEq, Repr

/-- Read a heap cell. -/
def heapGet (h : List ConfigObj) (i : Nat) : ConfigObj :=
  (h.get? i).getD cdef

/-- The object `BuildConfig.current` points at. -/
def World.curObj (w : World) : ConfigObj := heapGet w.heap w.cur

/-- The world after module initialization:
`BuildConfig.current = BuildConfig()` installs a default root config. -/
def initWorld : World := ⟨[cdef], 0⟩

/-- Constructing a `BuildConfig` (e.g. via `build_config(**kwargs)`):
validation per `__init__`, then allocation of a fresh object.  The
global `current` is untouched. -/
def allocConfig (w : World) (kwargs : Attrs) : Except String (Nat × World) :=
  match mkBuildConfig kwargs with
  | .error e => .error e
  | .ok c => .ok (w.heap.length, ⟨w.heap ++ [c], w.cur⟩)

/-- `BuildConfig.__enter__`: save `BuildConfig.current` into
`_old_scope`, replace this object's `_attr` in place by
`current._attr.copy()` updated with its own `_attr` (own entries win),
and install this object as `BuildConfig.current`. -/
def enterScope (w : World) (i : Nat) : World :=
  let self := heapGet w.heap i
  let merged : Attrs := self.attr ++ (w.curObj).attr
  ⟨w.heap.set i ⟨merged, some w.cur⟩, i⟩

/-- `BuildConfig.__exit__`: `assert self._old_scope` (a `None` value is
falsy, a config object is truthy), then restore `BuildConfig.current`
to the saved scope.  `_old_scope` is not cleared. -/
def exitScope (w : World) (i : Nat) : Except String World :=
  match (heapGet w.heap i).oldScope with
  | some p => .ok ⟨w.heap, p⟩
  | none => .error "AssertionError: self._old_scope"

/-- A balanced program of nested configuration scopes: `scope ov r b`
is `with build_config(**ov): b` where `r` records whether the body
raises an exception after `b`; Python's `with` statement runs
`__exit__` on every exit path. -/
inductive ScopeProg where
  | skip
  | seq (a b : ScopeProg)
  | scope (ov : Attrs) (raises : Bool) (body : ScopeProg)

/-- Run a scope program; the `Bool` is the propagating-exception flag.
A raised exception skips the remainder of a sequence but never an
`__exit__` (the `with` statement guarantee). -/
def runProg : ScopeProg → World → World × Bool
  | .skip, w => (w, false)
  | .seq a b, w =>
    match runProg a w with
    | (w1, true) => (w1, true)
    | (w1, false) => runProg b w1
  | .scope ov raises body, w =>
    match allocConfig w ov with
    | .error _ => (w, true)
    | .ok (i, w1) =>
      let w2 := enterScope w1 i
      match runProg body w2 with
      | (w3, r) =>
        match exitScope w3 i with
        | .ok w4 => (w4, r || raises)
        | .error _ => (w3, true)

/-- A `tvm.tensor.Tensor` as the resolver sees it.  Modelled from the
spec where `tensor.py` is absent from the sources: per the spec a tensor
has an identity distinct from its (shape, element type, name) metadata,
so `tid` carries the Python object identity used as the dict key. -/
structure TensorData where
  tid : Nat
  shape : List Int
  dtype : String
  name : String
deriving DecidableEq, Repr

/-- A member of the `args` list handed to `get_binds`: a `Tensor`, a
`Buffer`, a `Var`, or anything else (rejected). -/
inductive Arg where
  | tensor (t : TensorData)
  | buffer (bid : Nat)
  | var (vid : Nat)
  | otherArg (oid : Nat)
deriving DecidableEq, Repr

/-- A member of the produced `arg_list`: a fresh buffer descriptor from
`api.decl_buffer(x.shape, dtype=x.dtype, name=x.name)` (symbolic
collaborator), or a `Buffer`/`Var` passed through as-is. -/
inductive BufSpec where
  | declBuffer (shape : List Int) (dtype : String) (name : String)
  | buffer (bid : Nat)
  | var (vid : Nat)
deriving DecidableEq, Repr

/-- The `binds` dict: tensor identity ↦ buffer descriptor, in insertion
order. -/
abbrev Binds := List (Nat × BufSpec)

/-- The loop body of `get_binds` over the already-copied `binds` dict:
a `Tensor` gets a fresh `decl_buffer` inserted under its identity
(`assert x not in binds` fires on a duplicate); a `Buffer` or `Var` is
appended as-is; anything else is a `ValueError`. -/
def get_binds_loop : List Arg → Binds → Except String (Binds × List BufSpec)
  | [], binds => .ok (binds, [])
  | .tensor t :: rest, binds =>
    if (List.lookup t.tid binds).isSome then
      .error "AssertionError: x not in binds"
    else
      match get_binds_loop rest
          (binds ++ [(t.tid, .declBuffer t.shape t.dtype t.name)]) with
      | .error e => .error e
      | .ok (b2, l) => .ok (b2, .declBuffer t.shape t.dtype t.name :: l)
  | .buffer b :: rest, binds =>
    match get_binds_loop rest binds with
    | .error e => .error e
    | .ok (b2, l) => .ok (b2, .buffer b :: l)
  | .var v :: rest, binds =>
    match get_binds_loop rest binds with
    | .error e => .error e
    | .ok (b2, l) => .ok (b2, .var v :: l)
  | .otherArg _ :: _, _ => .error "args must be Tensor, Buffer or Var"

/-- `binds = {} if binds is None else binds.copy()` — the seed table
the loop starts from (copying is implicit in the pure embedding: the
caller's list is never changed). -/
def seedOf : Option Binds → Binds
  | none => []
  | some b => b

/-- `get_binds(args, binds=None)`: seed per `seedOf`, then run the
loop. -/
def get_binds (args : List Arg) (binds : Option Binds) :
    Except String (Binds × List BufSpec) :=
  get_binds_loop args (seedOf binds)

/-- A schedule handle; `normalize` is the symbolic collaborator
`sch.normalize()`. -/
inductive Sched where
  | handle (sid : Nat)
  | normalize (s : Sched)
deriving DecidableEq, Repr

/-- Symbolic `schedule.InferBound(sch)`. -/
inductive Bounds where
  | infer (s : Sched)
deriving DecidableEq, Repr

/-- The intermediate representation as a symbolic trace: one constructor
per collaborator pass, recording exactly the arguments the orchestrator
passes.  A `LoweredFunc` supplied by a caller of `build` is an arbitrary
`IR` value. -/
inductive IR where
  | scheduleOps (s : Sched) (b : Bounds)
  | storageFlatten (body : IR) (binds : Binds)
  | canonicalSimplify (body : IR)
  | loopPartition (body : IR)
  | vectorizeLoop (body : IR)
  | injectVirtualThread (body : IR)
  | storageRewrite (body : IR)
  | unrollLoop (body : IR) (maxStep minDepth unrollExplicit : CVal)
  | simplify (body : IR)
  | makeAPI (body : IR) (name : String) (argList : List BufSpec) (reserved : Nat)
  | storageSync (body : IR) (scope : String)
  | lowerThreadAllreduce (body : IR) (warpSize : Nat)
  | lowerPackedCall (body : IR)
  | leaf (fid : Nat)
deriving DecidableEq, Repr

/-- What `lower` returns: the bare statement tree in `simple_mode`, else
the `MakeAPI` function descriptor. -/
inductive LoweredResult where
  | stmt (s : IR)
  | func (f : IR)
deriving DecidableEq, Repr

/-- An attribute read `cfg.name` on a config object; a name that is
neither set nor in `defaults` is a `KeyError` (never happens for the
four recognized names). -/
def readCfg (c : ConfigObj) (name : String) : Except String CVal :=
  match getAttr c name with
  | some v => .ok v
  | none => .error ("KeyError: " ++ name)

/-- `lower(sch, args, name, binds, simple_mode)`: the fixed pipeline.
`BuildConfig.current` is read from the world at the unroll step. -/
def lower (w : World) (sch : Sched) (args : List Arg) (name : String)
    (binds : Option Binds) (simple_mode : Bool) :
    Except String LoweredResult :=
  match get_binds args binds with
  | .error e => .error e
  | .ok (binds2, arg_list) =>
    let sch2 := Sched.normalize sch
    let bounds := Bounds.infer sch2
    let stmt0 := IR.scheduleOps sch2 bounds
    let stmt1 := IR.canonicalSimplify (IR.storageFlatten stmt0 binds2)
    let stmt2 := if simple_mode then stmt1 else IR.loopPartition stmt1
    let stmt3 := IR.storageRewrite (IR.injectVirtualThread (IR.vectorizeLoop stmt2))
    let cfg := w.curObj
    match readCfg cfg "auto_unroll_max_step" with
    | .error e => .error e
    | .ok maxStep =>
      match readCfg cfg "auto_unroll_min_depth" with
      | .error e => .error e
      | .ok minDepth =>
        match readCfg cfg "unroll_explicit" with
        | .error e => .error e
        | .ok uex =>
          let stmt4 := IR.simplify (IR.unrollLoop stmt3 maxStep minDepth uex)
          if simple_mode then .ok (.stmt stmt4)
          else .ok (.func (IR.makeAPI stmt4 name arg_list 0))

/-- The first argument of `build`: a `Schedule`, a `LoweredFunc`, or
anything else (rejected). -/
inductive SchedOrFunc where
  | sched (s : Sched)
  | lowered (f : IR)
  | otherInput (oid : Nat)
deriving DecidableEq, Repr

/-- A compiled module: `cg fs t` is `codegen.build_module(fs, t)`
(the collaborator accepts one function or a list; both are modelled as
a list), and `imported h d` is `h` after `h.import_module(d)`. -/
inductive Module where
  | cg (funcs : List IR) (target : String)
  | imported (host : Module) (dev : Module)
deriving DecidableEq, Repr

/-- `build(sch, args, target, target_host, name, binds)`.  The two
collaborators whose results steer control flow are parameters:
`splitHD` is `ir_pass.SplitHostDevice` and `enabled` is
`module.enabled`.  Python truthiness: an empty `args` list, an empty
`target_host` and an empty `target` string are falsy. -/
def build (w : World) (sch : SchedOrFunc) (args : Option (List Arg))
    (target : String) (target_host : Option String) (name : String)
    (binds : Option Binds) (splitHD : IR → List IR)
    (enabled : String → Bool) : Except String Module :=
  let fapiE : Except String IR :=
    match sch with
    | .sched s =>
      match args with
      | none => .error "args must be given for build from schedule"
      | some a =>
        match lower w s a name binds false with
        | .error e => .error e
        | .ok (.func f) => .ok f
        | .ok (.stmt st) => .ok st
    | .lowered f =>
      match args with
      | some (_ :: _) => .error "args must be done when build from LoweredFunc"
      | _ => .ok f
    | .otherInput _ => .error "sch have to be Schedule or LoweredFunc"
  match fapiE with
  | .error e => .error e
  | .ok fapi =>
    match readCfg w.curObj "detect_global_barrier" with
    | .error e => .error e
    | .ok gb =>
      let fapi1 := if gb.truthy then IR.storageSync fapi "global" else fapi
      let fapi2 := IR.storageSync fapi1 "shared"
      let warp_size : Nat := if target = "cuda" then 32 else 1
      let fapi3 := IR.lowerThreadAllreduce fapi2 warp_size
      match splitHD fapi3 with
      | [] => .error "IndexError: list index out of range"
      | f0 :: rest =>
        let f0p := IR.lowerPackedCall f0
        match rest with
        | [] => .ok (Module.cg [f0p] target)
        | _ :: _ =>
          let th :=
            match target_host with
            | none => if enabled "llvm" then "llvm" else "stackvm"
            | some s =>
              if s = "" then (if enabled "llvm" then "llvm" else "stackvm")
              else s
          let mhost := Module.cg [f0p] th
          if target = "" then .ok mhost
          else .ok (Module.imported mhost (Module.cg rest target))

/-- The `arg_list` element `get_binds` produces for one argument
(`none` for the rejected kind). -/
def elemOut : Arg → Option BufSpec
  | .tensor t => some (.declBuffer t.shape t.dtype t.name)
  | .buffer b => some (.buffer b)
  | .var v => some (.var v)
  | .otherArg _ => none

/-- Element-wise translation of a whole argument list, `none` as soon
as one element is of the rejected kind. -/
def elemOuts : List Arg → Option (List BufSpec)
  | [] => some []
  | a :: rest =>
    match elemOut a, elemOuts rest with
    | some b, some l => some (b :: l)
    | _, _ => none

/-- The binding-table entries the tensors of an argument list
contribute, in input order. -/
def tensorEntries : List Arg → Binds
  | [] => []
  | .tensor t :: rest =>
    (t.tid, .declBuffer t.shape t.dtype t.name) :: tensorEntries rest
  | .buffer _ :: rest => tensorEntries rest
  | .var _ :: rest => tensorEntries rest
  | .otherArg _ :: rest => tensorEntries rest

/-- The tensor identities occurring in an argument list, in order. -/
def tensorIds (args : List Arg) : List Nat :=
  (tensorEntries args).map Prod.fst

/-- Whether a `LoopPartition` pass occurs anywhere in a trace. -/
def hasLP : IR → Bool
  | .scheduleOps _ _ => false
  | .storageFlatten b _ => hasLP b
  | .canonicalSimplify b => hasLP b
  | .loopPartition _ => true
  | .vectorizeLoop b => hasLP b
  | .injectVirtualThread b => hasLP b
  | .storageRewrite b => hasLP b
  | .unrollLoop b _ _ _ => hasLP b
  | .simplify b => hasLP b
  | .makeAPI b _ _ _ => hasLP b
  | .storageSync b _ => hasLP b
  | .lowerThreadAllreduce b _ => hasLP b
  | .lowerPackedCall b => hasLP b
  | .leaf _ => false

/-- Whether a `LoopPartition` pass occurs anywhere in a lowering
result. -/
def hasLPRes : LoweredResult → Bool
  | .stmt s => hasLP s
  | .func f => hasLP f

/-- The arguments the `UnrollLoop` pass of a lowering result was called
with, read off the trace. -/
def unrollArgsIR : IR → Option (CVal × CVal × CVal)
  | .unrollLoop _ a b e => some (a, b, e)
  | .simplify s => unrollArgsIR s
  | .makeAPI s _ _ _ => unrollArgsIR s
  | _ => none

/-- `unrollArgsIR` through a `LoweredResult`. -/
def unrollArgsOf : LoweredResult → Option (CVal × CVal × CVal)
  | .stmt s => unrollArgsIR s
  | .func f => unrollArgsIR f

lemma lookup_append {α β : Type} [BEq α] (k : α) (l1 l2 : List (α × β)) :
    List.lookup k (l1 ++ l2) =
      match List.lookup k l1 with
      | some v => some v
      | none => List.lookup k l2 := by
  induction l1 with
  | nil => simp
  | cons p rest ih =>
    obtain ⟨k', v'⟩ := p
    simp only [List.cons_append, List.lookup]
    cases h : k == k'
    · exact ih
    · rfl

lemma heapGet_set_self (h : List ConfigObj) (i : Nat) (c : ConfigObj)
    (hi : i < h.length) : heapGet (h.set i c) i = c := by
  simp [heapGet, List.getElem?_set_eq_of_lt, hi]

lemma heapGet_set_ne (h : List ConfigObj) (i j : Nat) (c : ConfigObj)
    (hij : i ≠ j) : heapGet (h.set i c) j = heapGet h j := by
  simp [heapGet, List.getElem?_set_ne hij]

lemma heapGet_append_lt (h : List ConfigObj) (t : List ConfigObj) (j : Nat)
    (hj : j < h.length) : heapGet (h ++ t) j = heapGet h j := by
  induction h generalizing j with
  | nil => simp at hj
  | cons a rest ih =>
    cases j with
    | zero => simp [heapGet]
    | succ j' =>
      simp only [List.length_cons, Nat.succ_lt_succ_iff] at hj
      simpa [heapGet, List.get?] using ih j' hj

lemma heapGet_append_self (h : List ConfigObj) (c : ConfigObj) :
    heapGet (h ++ [c]) h.length = c := by
  induction h with
  | nil => simp [heapGet]
  | cons a rest ih => simpa [heapGet, List.get?] using ih

lemma getAttr_aums (c : ConfigObj) :
    getAttr c "auto_unroll_max_step" =
      some ((List.lookup "auto_unroll_max_step" c.attr).getD (.int 0)) := by
  unfold getAttr
  cases h : List.lookup "auto_unroll_max_step" c.attr
  · simp only [h]
    decide
  · simp [h]

lemma getAttr_aumd (c : ConfigObj) :
    getAttr c "auto_unroll_min_depth" =
      some ((List.lookup "auto_unroll_min_depth" c.attr).getD (.int 1)) := by
  unfold getAttr
  cases h : List.lookup "auto_unroll_min_depth" c.attr
  · simp only [h]
    decide
  · simp [h]

lemma getAttr_uex (c : ConfigObj) :
    getAttr c "unroll_explicit" =
      some ((List.lookup "unroll_explicit" c.attr).getD (.bool true)) := by
  unfold getAttr
  cases h : List.lookup "unroll_explicit" c.attr
  · simp only [h]
    decide
  · simp [h]

lemma enterScope_cur (w : World) (i : Nat) : (enterScope w i).cur = i := rfl

lemma enterScope_heap (w : World) (i : Nat) :
    (enterScope w i).heap =
      w.heap.set i ⟨(heapGet w.heap i).attr ++ (w.curObj).attr, some w.cur⟩ :=
  rfl

lemma enterScope_length (w : World) (i : Nat) :
    (enterScope w i).heap.length = w.heap.length := by
  rw [enterScope_heap]; simp

lemma heapGet_enter_self (w : World) (i : Nat) (hi : i < w.heap.length) :
    heapGet (enterScope w i).heap i =
      ⟨(heapGet w.heap i).attr ++ (w.curObj).attr, some w.cur⟩ := by
  rw [enterScope_heap]; exact heapGet_set_self _ _ _ hi

lemma heapGet_enter_ne (w : World) (i j : Nat) (hij : i ≠ j) :
    heapGet (enterScope w i).heap j = heapGet w.heap j := by
  rw [enterScope_heap]; exact heapGet_set_ne _ _ _ _ hij

lemma runProg_restores (p : ScopeProg) :
    ∀ w : World, w.cur < w.heap.length →
      (runProg p w).1.cur = w.cur ∧
      w.heap.length ≤ (runProg p w).1.heap.length ∧
      ∀ j, j < w.heap.length →
        heapGet (runProg p w).1.heap j = heapGet w.heap j := by
  induction p with
  | skip => intro w _; exact ⟨rfl, le_refl _, fun j _ => rfl⟩
  | seq a b iha ihb =>
    intro w hw
    obtain ⟨ha1, ha2, ha3⟩ := iha w hw
    cases hr : runProg a w with
    | mk w1 r =>
      rw [hr] at ha1 ha2 ha3
      cases r with
      | true =>
        have hrun : runProg (ScopeProg.seq a b) w = (w1, true) := by
          simp only [runProg, hr]
        rw [hrun]
        exact ⟨ha1, ha2, ha3⟩
      | false =>
        have hw1 : w1.cur < w1.heap.length := by
          rw [ha1]; exact lt_of_lt_of_le hw ha2
        obtain ⟨hb1, hb2, hb3⟩ := ihb w1 hw1
        have hrun : runProg (ScopeProg.seq a b) w = runProg b w1 := by
          simp only [runProg, hr]
        rw [hrun]
        refine ⟨by rw [hb1, ha1], le_trans ha2 hb2, ?_⟩
        intro j hj
        rw [hb3 j (lt_of_lt_of_le hj ha2), ha3 j hj]
  | scope ov raises body ih =>
    intro w hw
    cases hmk : mkBuildConfig ov with
    | error e =>
      have hrun : runProg (ScopeProg.scope ov raises body) w = (w, true) := by
        simp only [runProg, allocConfig, hmk]
      rw [hrun]
      exact ⟨rfl, le_refl _, fun j _ => rfl⟩
    | ok c =>
      have hal : allocConfig w ov
          = .ok (w.heap.length, ⟨w.heap ++ [c], w.cur⟩) := by
        simp [allocConfig, hmk]
      have h2cur : (enterScope ⟨w.heap ++ [c], w.cur⟩ w.heap.length).cur
          = w.heap.length := rfl
      have h2len :
          (enterScope ⟨w.heap ++ [c], w.cur⟩ w.heap.length).heap.length
            = w.heap.length + 1 := by
        rw [enterScope_length]; simp
      have h2lt : (enterScope ⟨w.heap ++ [c], w.cur⟩ w.heap.length).cur
          < (enterScope ⟨w.heap ++ [c], w.cur⟩ w.heap.length).heap.length := by
        rw [h2cur, h2len]; exact Nat.lt_succ_self _
      obtain ⟨hb1, hb2, hb3⟩ := ih _ h2lt
      cases hrb : runProg body (enterScope ⟨w.heap ++ [c], w.cur⟩ w.heap.length)
        with
      | mk w3 r =>
        rw [hrb] at hb1 hb2 hb3
        have hsaved : heapGet w3.heap w.heap.length =
            heapGet (enterScope ⟨w.heap ++ [c], w.cur⟩ w.heap.length).heap
              w.heap.length := by
          apply hb3
          rw [h2len]; exact Nat.lt_succ_self _
        have hself :
            heapGet (enterScope ⟨w.heap ++ [c], w.cur⟩ w.heap.length).heap
              w.heap.length
            = ⟨c.attr ++ (World.curObj ⟨w.heap ++ [c], w.cur⟩).attr,
               some w.cur⟩ := by
          rw [heapGet_enter_self _ _ (by simp)]
          rw [show heapGet (World.heap ⟨w.heap ++ [c], w.cur⟩) w.heap.length = c
              from heapGet_append_self w.heap c]
        have hexit : exitScope w3 w.heap.length = .ok ⟨w3.heap, w.cur⟩ := by
          unfold exitScope
          rw [hsaved, hself]
        have hrun : runProg (ScopeProg.scope ov raises body) w
            = (⟨w3.heap, w.cur⟩, r || raises) := by
          simp only [runProg, hal, hrb, hexit]
        rw [hrun]
        have hlen3 : w.heap.length + 1 ≤ w3.heap.length := by
          rw [← h2len]; exact hb2
        refine ⟨rfl, le_trans (Nat.le_succ _) hlen3, ?_⟩
        intro j hj
        show heapGet w3.heap j = heapGet w.heap j
        have hj2 : j
            < (enterScope ⟨w.heap ++ [c], w.cur⟩ w.heap.length).heap.length := by
          rw [h2len]; exact Nat.lt_succ_of_lt hj
        rw [hb3 j hj2, heapGet_enter_ne _ _ _ (by omega)]
        show heapGet (w.heap ++ [c]) j = heapGet w.heap j
        exact heapGet_append_lt _ _ _ hj

lemma allocConfig_ok (w : World) (ov : Attrs) (i : Nat) (w' : World)
    (halloc : allocConfig w ov = .ok (i, w')) :
    i = w.heap.length ∧ w' = ⟨w.heap ++ [⟨ov, none⟩], w.cur⟩ := by
  cases hmk : mkBuildConfig ov with
  | error e => simp [allocConfig, hmk] at halloc
  | ok c =>
    cases hfk : findInvalidKey ov with
    | some k0 => simp [mkBuildConfig, hfk] at hmk
    | none =>
      have hc : c = ⟨ov, none⟩ := by
        have h := hmk
        simp only [mkBuildConfig, hfk, Except.ok.injEq] at h
        exact h.symm
      subst hc
      rw [allocConfig, hmk] at halloc
      simp only [Except.ok.injEq, Prod.mk.injEq] at halloc
      exact ⟨halloc.1.symm, halloc.2.symm⟩

lemma curObj_enter_alloc (w : World) (ov : Attrs) (i : Nat) (w' : World)
    (hcur : w.cur < w.heap.length)
    (halloc : allocConfig w ov = .ok (i, w')) :
    (enterScope w' i).curObj = ⟨ov ++ (w.curObj).attr, some w.cur⟩ := by
  obtain ⟨hi, hw'⟩ := allocConfig_ok w ov i w' halloc
  subst hi hw'
  show heapGet (enterScope ⟨w.heap ++ [⟨ov, none⟩], w.cur⟩ w.heap.length).heap
      (enterScope ⟨w.heap ++ [⟨ov, none⟩], w.cur⟩ w.heap.length).cur = _
  rw [enterScope_cur]
  rw [heapGet_enter_self _ _ (by simp)]
  have h1 : heapGet (World.heap ⟨w.heap ++ [⟨ov, none⟩], w.cur⟩) w.heap.length
      = ⟨ov, none⟩ := heapGet_append_self w.heap _
  have h2 : World.curObj ⟨w.heap ++ [⟨ov, none⟩], w.cur⟩ = w.curObj := by
    show heapGet (w.heap ++ [⟨ov, none⟩]) w.cur = _
    exact heapGet_append_lt _ _ _ hcur
  rw [h1, h2]

lemma getAttr_enter_alloc (w : World) (ov : Attrs) (i : Nat) (w' : World)
    (hcur : w.cur < w.heap.length)
    (halloc : allocConfig w ov = .ok (i, w')) (k : String) :
    getAttr ((enterScope w' i).curObj) k =
      match List.lookup k ov with
      | some v => some v
      | none => getAttr w.curObj k := by
  rw [curObj_enter_alloc w ov i w' hcur halloc]
  show getAttr ⟨ov ++ (w.curObj).attr, some w.cur⟩ k = _
  unfold getAttr
  rw [show ConfigObj.attr ⟨ov ++ (w.curObj).attr, some w.cur⟩
      = ov ++ (w.curObj).attr from rfl]
  rw [lookup_append]
  cases List.lookup k ov <;> rfl

lemma getAttr_dgb (c : ConfigObj) :
    getAttr c "detect_global_barrier" =
      some ((List.lookup "detect_global_barrier" c.attr).getD (.bool true)) := by
  unfold getAttr
  cases h : List.lookup "detect_global_barrier" c.attr
  · simp only [h]
    decide
  · simp [h]

lemma lookup_append_none {α β : Type} [BEq α] (k : α) (l1 l2 : List (α × β)) :
    List.lookup k (l1 ++ l2) = none ↔
      List.lookup k l1 = none ∧ List.lookup k l2 = none := by
  rw [lookup_append]
  cases h : List.lookup k l1 <;> simp

lemma elemOuts_other (args : List Arg) (o : Nat) (h : Arg.otherArg o ∈ args) :
    elemOuts args = none := by
  induction args with
  | nil => simp at h
  | cons a rest ih =>
    rcases List.mem_cons.mp h with heq | hmem
    · rw [← heq]; rfl
    · cases a <;> simp [elemOuts, elemOut, ih hmem]

lemma get_binds_loop_ok (args : List Arg) :
    ∀ (binds bb : Binds) (l : List BufSpec),
      get_binds_loop args binds = .ok (bb, l) →
        elemOuts args = some l ∧
        bb = binds ++ tensorEntries args ∧
        (tensorIds args).Nodup ∧
        ∀ t ∈ tensorIds args, List.lookup t binds = none := by
  induction args with
  | nil =>
    intro binds bb l h
    simp only [get_binds_loop, Except.ok.injEq, Prod.mk.injEq] at h
    refine ⟨by rw [← h.2]; rfl, by rw [← h.1]; simp [tensorEntries], ?_, ?_⟩
    · simp [tensorIds, tensorEntries]
    · simp [tensorIds, tensorEntries]
  | cons a rest ih =>
    intro binds bb l h
    cases a with
    | tensor t =>
      cases hlk : List.lookup t.tid binds with
      | some b0 => simp [get_binds_loop, hlk] at h
      | none =>
        simp only [get_binds_loop, hlk, Option.isSome_none, Bool.false_eq_true,
          if_false, Bool.if_false_left] at h
        cases hrec : get_binds_loop rest
            (binds ++ [(t.tid, .declBuffer t.shape t.dtype t.name)]) with
        | error e => rw [hrec] at h; exact absurd h (by simp)
        | ok p =>
          obtain ⟨b2, l2⟩ := p
          rw [hrec] at h
          simp only [Except.ok.injEq, Prod.mk.injEq] at h
          obtain ⟨hbb, hl⟩ := h
          obtain ⟨ih1, ih2, ih3, ih4⟩ := ih _ b2 l2 hrec
          have hids : tensorIds (Arg.tensor t :: rest)
              = t.tid :: tensorIds rest := rfl
          refine ⟨?_, ?_, ?_, ?_⟩
          · rw [← hl]
            simp [elemOuts, elemOut, ih1]
          · rw [← hbb, ih2, List.append_assoc]
            rfl
          · rw [hids]
            refine List.nodup_cons.mpr ⟨?_, ih3⟩
            intro hmem
            have := ih4 t.tid hmem
            rw [lookup_append_none] at this
            simp [List.lookup] at this
          · rw [hids]
            intro t' ht'
            rcases List.mem_cons.mp ht' with heq | hmem
            · rw [heq]; exact hlk
            · exact ((lookup_append_none t' binds _).mp (ih4 t' hmem)).1
    | buffer b =>
      simp only [get_binds_loop] at h
      cases hrec : get_binds_loop rest binds with
      | error e => rw [hrec] at h; exact absurd h (by simp)
      | ok p =>
        obtain ⟨b2, l2⟩ := p
        rw [hrec] at h
        simp only [Except.ok.injEq, Prod.mk.injEq] at h
        obtain ⟨hbb, hl⟩ := h
        obtain ⟨ih1, ih2, ih3, ih4⟩ := ih _ b2 l2 hrec
        exact ⟨by rw [← hl]; simp [elemOuts, elemOut, ih1],
          by rw [← hbb, ih2]; rfl, ih3, ih4⟩
    | var v =>
      simp only [get_binds_loop] at h
      cases hrec : get_binds_loop rest binds with
      | error e => rw [hrec] at h; exact absurd h (by simp)
      | ok p =>
        obtain ⟨b2, l2⟩ := p
        rw [hrec] at h
        simp only [Except.ok.injEq, Prod.mk.injEq] at h
        obtain ⟨hbb, hl⟩ := h
        obtain ⟨ih1, ih2, ih3, ih4⟩ := ih _ b2 l2 hrec
        exact ⟨by rw [← hl]; simp [elemOuts, elemOut, ih1],
          by rw [← hbb, ih2]; rfl, ih3, ih4⟩
    | otherArg o => simp [get_binds_loop] at h

/-- C1: for every sequence of nested configuration scope enter/exit pairs,
after the outermost scope exits the global current configuration is exactly
the object (pointer and contents) that was current before the outermost
scope was entered, and this restoration happens regardless of whether any
scope body raised an error. -/
theorem C1_scope_roundtrip (p : ScopeProg) (w : World)
    (hw : w.cur < w.heap.length) :
    (runProg p w).1.cur = w.cur ∧ (runProg p w).1.curObj = w.curObj := by
  obtain ⟨h1, _, h3⟩ := runProg_restores p w hw
  refine ⟨h1, ?_⟩
  show heapGet (runProg p w).1.heap (runProg p w).1.cur = heapGet w.heap w.cur
  rw [h1, h3 w.cur hw]

/-- Witness for C1 at a concrete nested program whose inner body raises. -/
theorem C1_scope_roundtrip_witness :
    initWorld.cur < initWorld.heap.length ∧
    ((runProg (ScopeProg.scope [("auto_unroll_max_step", CVal.int 8)] false
        (ScopeProg.scope [("detect_global_barrier", CVal.bool false)] true
          ScopeProg.skip)) initWorld).1.cur = initWorld.cur ∧
      (runProg (ScopeProg.scope [("auto_unroll_max_step", CVal.int 8)] false
        (ScopeProg.scope [("detect_global_barrier", CVal.bool false)] true
          ScopeProg.skip)) initWorld).1.curObj = initWorld.curObj) :=
  ⟨by decide, C1_scope_roundtrip _ initWorld (by decide)⟩

/-- C6: after scope entry, an option the scope overrode reads as the
override, and an option it did not override reads as the enclosing
(previously current) configuration's value for that option. -/
theorem C6_scope_inheritance (w : World) (ov : Attrs) (i : Nat) (w' : World)
    (hcur : w.cur < w.heap.length)
    (halloc : allocConfig w ov = .ok (i, w')) (k : String) :
    (∀ v, List.lookup k ov = some v →
        getAttr ((enterScope w' i).curObj) k = some v) ∧
    (List.lookup k ov = none →
        getAttr ((enterScope w' i).curObj) k = getAttr w.curObj k) := by
  have h := getAttr_enter_alloc w ov i w' hcur halloc k
  constructor
  · intro v hv
    rw [h, hv]
  · intro hn
    rw [h, hn]

/-- Witness for C6: a scope overriding `auto_unroll_max_step` over the
initial world reads back the override, and reads the untouched
`detect_global_barrier` from the enclosing configuration. -/
theorem C6_scope_inheritance_witness :
    getAttr ((enterScope ⟨[cdef, ⟨[("auto_unroll_max_step", CVal.int 8)], none⟩], 0⟩ 1).curObj)
        "auto_unroll_max_step" = some (CVal.int 8) ∧
    getAttr ((enterScope ⟨[cdef, ⟨[("auto_unroll_max_step", CVal.int 8)], none⟩], 0⟩ 1).curObj)
        "detect_global_barrier" = getAttr initWorld.curObj "detect_global_barrier" :=
  ⟨(C6_scope_inheritance initWorld [("auto_unroll_max_step", CVal.int 8)] 1
      ⟨[cdef, ⟨[("auto_unroll_max_step", CVal.int 8)], none⟩], 0⟩
      (by decide) (by rfl) "auto_unroll_max_step").1 _ (by decide),
   (C6_scope_inheritance initWorld [("auto_unroll_max_step", CVal.int 8)] 1
      ⟨[cdef, ⟨[("auto_unroll_max_step", CVal.int 8)], none⟩], 0⟩
      (by decide) (by rfl) "detect_global_barrier").2 (by decide)⟩

/-- C8 counterexample: a scope entered once and exited twice.  The claim
says the second (double) exit must fail with an unbalanced-scope error;
in the code `_old_scope` is not cleared on exit, so the second exit
passes the assertion and succeeds, restoring the saved scope again. -/
theorem C8_counterexample :
    (match exitScope
        (enterScope ⟨[cdef, ⟨[("auto_unroll_max_step", CVal.int 8)], none⟩], 0⟩ 1) 1 with
      | .ok w2 => exitScope w2 1
      | .error e => .error e) =
      .ok ⟨[cdef, ⟨[("auto_unroll_max_step", CVal.int 8)], some 0⟩], 0⟩ := by
  rfl

/-- C8 amended: exiting a configuration scope that was never entered
(its `_old_scope` is still the initial `None`, as every freshly
constructed configuration's is) fails with the unbalanced-scope
assertion; but exiting an already-exited scope a second time succeeds
and restores the saved previous scope again, because the saved
reference is not cleared on exit. -/
theorem C8_unbalanced_scope (w : World) (i : Nat) :
    ((heapGet w.heap i).oldScope = none →
      exitScope w i = .error "AssertionError: self._old_scope") ∧
    (∀ kwargs c, mkBuildConfig kwargs = .ok c → c.oldScope = none) ∧
    (i < w.heap.length →
      exitScope (enterScope w i) i = .ok ⟨(enterScope w i).heap, w.cur⟩ ∧
      exitScope ⟨(enterScope w i).heap, w.cur⟩ i
        = .ok ⟨(enterScope w i).heap, w.cur⟩) := by
  refine ⟨?_, ?_, ?_⟩
  · intro h
    unfold exitScope
    rw [h]
  · intro kwargs c hmk
    cases hfk : findInvalidKey kwargs with
    | some k0 => simp [mkBuildConfig, hfk] at hmk
    | none =>
      simp only [mkBuildConfig, hfk, Except.ok.injEq] at hmk
      rw [← hmk]
  · intro hi
    have hself := heapGet_enter_self w i hi
    constructor
    · unfold exitScope
      rw [hself]
    · unfold exitScope
      rw [show World.heap ⟨(enterScope w i).heap, w.cur⟩ = (enterScope w i).heap
          from rfl]
      rw [hself]

/-- Witness for C8's amended statement on the initial world. -/
theorem C8_unbalanced_scope_witness :
    exitScope initWorld 0 = .error "AssertionError: self._old_scope" ∧
    exitScope (enterScope initWorld 0) 0
      = .ok ⟨(enterScope initWorld 0).heap, initWorld.cur⟩ :=
  ⟨(C8_unbalanced_scope initWorld 0).1 (by decide),
   ((C8_unbalanced_scope initWorld 0).2.2 (by decide)).1⟩

/-- C10: entering a configuration scope mutates the configuration object
itself: its stored option set becomes the merge of the enclosing current
configuration's options with its own (its own win), this merged set
persists in the object after the scope exits, re-entering merges against
the previously merged set, and entry overwrites the saved previous-scope
reference. -/
theorem C10_enter_mutates (w : World) (i : Nat) (hi : i < w.heap.length) :
    (heapGet (enterScope w i).heap i).attr
        = (heapGet w.heap i).attr ++ (w.curObj).attr ∧
    (heapGet (enterScope w i).heap i).oldScope = some w.cur ∧
    exitScope (enterScope w i) i = .ok ⟨(enterScope w i).heap, w.cur⟩ ∧
    (heapGet (World.heap ⟨(enterScope w i).heap, w.cur⟩) i).attr
        = (heapGet w.heap i).attr ++ (w.curObj).attr ∧
    (w.cur ≠ i →
      (heapGet (enterScope ⟨(enterScope w i).heap, w.cur⟩ i).heap i).attr
        = ((heapGet w.heap i).attr ++ (w.curObj).attr) ++ (w.curObj).attr) := by
  have hself := heapGet_enter_self w i hi
  refine ⟨by rw [hself], by rw [hself], ?_, by rw [hself], ?_⟩
  · unfold exitScope
    rw [hself]
  · intro hne
    have hi2 : i < (World.heap ⟨(enterScope w i).heap, w.cur⟩).length := by
      show i < (enterScope w i).heap.length
      rw [enterScope_length]; exact hi
    rw [heapGet_enter_self _ _ hi2]
    have hcur2 : World.curObj ⟨(enterScope w i).heap, w.cur⟩ = w.curObj := by
      show heapGet (enterScope w i).heap w.cur = heapGet w.heap w.cur
      exact heapGet_enter_ne w i w.cur (fun h => hne h.symm)
    rw [hcur2]
    rw [show heapGet (World.heap ⟨(enterScope w i).heap, w.cur⟩) i
        = heapGet (enterScope w i).heap i from rfl]
    rw [hself]

/-- Witness for C10 on a concrete two-object world. -/
theorem C10_enter_mutates_witness :
    (heapGet (enterScope ⟨[⟨[("unroll_explicit", CVal.bool false)], none⟩,
        ⟨[("auto_unroll_max_step", CVal.int 8)], none⟩], 0⟩ 1).heap 1).attr
      = [("auto_unroll_max_step", CVal.int 8),
         ("unroll_explicit", CVal.bool false)] ∧
    (heapGet (enterScope ⟨[⟨[("unroll_explicit", CVal.bool false)], none⟩,
        ⟨[("auto_unroll_max_step", CVal.int 8)], none⟩], 0⟩ 1).heap 1).oldScope
      = some 0 :=
  ⟨(C10_enter_mutates ⟨[⟨[("unroll_explicit", CVal.bool false)], none⟩,
      ⟨[("auto_unroll_max_step", CVal.int 8)], none⟩], 0⟩ 1 (by decide)).1,
   (C10_enter_mutates ⟨[⟨[("unroll_explicit", CVal.bool false)], none⟩,
      ⟨[("auto_unroll_max_step", CVal.int 8)], none⟩], 0⟩ 1 (by decide)).2.1⟩

/-- C9: constructing a configuration with an unrecognized option name
fails; construction does not install the configuration as current; and
reading a recognized option that was never set returns its fixed system
default rather than a missing-value error. -/
theorem C9_config_construction :
    (∀ kwargs : Attrs, (∃ p ∈ kwargs, List.lookup p.1 defaults = none) →
        ∃ e, mkBuildConfig kwargs = .error e) ∧
    (∀ (w : World) (kwargs : Attrs) (i : Nat) (w' : World),
        allocConfig w kwargs = .ok (i, w') → w'.cur = w.cur) ∧
    (∀ c : ConfigObj,
      (List.lookup "auto_unroll_max_step" c.attr = none →
          getAttr c "auto_unroll_max_step" = some (.int 0)) ∧
      (List.lookup "auto_unroll_min_depth" c.attr = none →
          getAttr c "auto_unroll_min_depth" = some (.int 1)) ∧
      (List.lookup "unroll_explicit" c.attr = none →
          getAttr c "unroll_explicit" = some (.bool true)) ∧
      (List.lookup "detect_global_barrier" c.attr = none →
          getAttr c "detect_global_barrier" = some (.bool true))) := by
  refine ⟨?_, ?_, ?_⟩
  · intro kwargs hbad
    have : (findInvalidKey kwargs).isSome := by
      obtain ⟨⟨k, v⟩, hmem, hnone⟩ := hbad
      induction kwargs with
      | nil => simp at hmem
      | cons p rest ih =>
        obtain ⟨k', v'⟩ := p
        by_cases hk : (List.lookup k' defaults).isSome
        · rcases List.mem_cons.mp hmem with heq | hmem'
          · rw [Prod.mk.injEq] at heq
            rw [heq.1] at hnone
            rw [hnone] at hk
            simp at hk
          · simp only [findInvalidKey, hk, if_true]
            exact ih hmem'
        · simp only [findInvalidKey, if_neg hk, Option.isSome_some]
    cases hfk : findInvalidKey kwargs with
    | none => rw [hfk] at this; simp at this
    | some k0 => exact ⟨"invalid argument " ++ k0, by simp [mkBuildConfig, hfk]⟩
  · intro w kwargs i w' halloc
    obtain ⟨_, hw'⟩ := allocConfig_ok w kwargs i w' halloc
    rw [hw']
  · intro c
    refine ⟨?_, ?_, ?_, ?_⟩ <;> intro h
    · rw [getAttr_aums c, h]; rfl
    · rw [getAttr_aumd c, h]; rfl
    · rw [getAttr_uex c, h]; rfl
    · rw [getAttr_dgb c, h]; rfl

/-- Witness for C9: an unrecognized option name is rejected, allocation
leaves `current` unchanged, and an unset option reads its default. -/
theorem C9_config_construction_witness :
    (∃ e, mkBuildConfig [("bogus_option", CVal.int 1)] = .error e) ∧
    World.cur ⟨[cdef, cdef], 0⟩ = initWorld.cur ∧
    getAttr cdef "auto_unroll_max_step" = some (.int 0) :=
  ⟨C9_config_construction.1 [("bogus_option", CVal.int 1)]
      ⟨("bogus_option", CVal.int 1), by simp, by decide⟩,
   C9_config_construction.2.1 initWorld [] 1 ⟨[cdef, cdef], 0⟩ (by rfl),
   (C9_config_construction.2.2 cdef).1 (by decide)⟩

/-- C7: `get_binds` never mutates the caller's table (the output table is
the seed extended, in order, by one fresh `decl_buffer` entry per tensor,
keyed by tensor identity); the output argument list mirrors the input
order element-wise (tensors become fresh buffer descriptors carrying
their shape/dtype/name, buffers and variables pass through); success
requires all tensor identities distinct from each other and from the
seeded keys (so the same identity twice fails the duplicate assertion,
while distinct tensors with equal names get distinct entries); and any
other argument kind fails. -/
theorem C7_get_binds (args : List Arg) (binds : Option Binds) :
    (∀ bb l, get_binds args binds = .ok (bb, l) →
        elemOuts args = some l ∧
        bb = seedOf binds ++ tensorEntries args ∧
        (tensorIds args).Nodup ∧
        (∀ t ∈ tensorIds args, List.lookup t (seedOf binds) = none)) ∧
    (∀ o, Arg.otherArg o ∈ args → ∃ e, get_binds args binds = .error e) ∧
    (¬ (tensorIds args).Nodup → ∃ e, get_binds args binds = .error e) := by
  refine ⟨?_, ?_, ?_⟩
  · intro bb l h
    exact get_binds_loop_ok args (seedOf binds) bb l h
  · intro o ho
    cases hg : get_binds args binds with
    | error e => exact ⟨e, rfl⟩
    | ok p =>
      obtain ⟨bb, l⟩ := p
      have h1 := (get_binds_loop_ok args (seedOf binds) bb l hg).1
      rw [elemOuts_other args o ho] at h1
      exact absurd h1 (by simp)
  · intro hnd
    cases hg : get_binds args binds with
    | error e => exact ⟨e, rfl⟩
    | ok p =>
      obtain ⟨bb, l⟩ := p
      exact absurd (get_binds_loop_ok args (seedOf binds) bb l hg).2.2.1 hnd

/-- Witness for C7: two tensors with the same name but distinct
identities, a buffer and a variable; the resolver succeeds, mirrors the
order and builds one entry per identity. -/
theorem C7_get_binds_witness :
    elemOuts [Arg.tensor ⟨0, [2], "float32", "A"⟩, Arg.buffer 5, Arg.var 7,
        Arg.tensor ⟨1, [2], "float32", "A"⟩]
      = some [BufSpec.declBuffer [2] "float32" "A", BufSpec.buffer 5,
          BufSpec.var 7, BufSpec.declBuffer [2] "float32" "A"] ∧
    [(0, BufSpec.declBuffer [2] "float32" "A"),
     (1, BufSpec.declBuffer [2] "float32" "A")]
      = seedOf none ++ tensorEntries [Arg.tensor ⟨0, [2], "float32", "A"⟩,
          Arg.buffer 5, Arg.var 7, Arg.tensor ⟨1, [2], "float32", "A"⟩] ∧
    (tensorIds [Arg.tensor ⟨0, [2], "float32", "A"⟩, Arg.buffer 5, Arg.var 7,
        Arg.tensor ⟨1, [2], "float32", "A"⟩]).Nodup ∧
    (∀ t ∈ tensorIds [Arg.tensor ⟨0, [2], "float32", "A"⟩, Arg.buffer 5,
        Arg.var 7, Arg.tensor ⟨1, [2], "float32", "A"⟩],
      List.lookup t (seedOf none) = none) :=
  (C7_get_binds [Arg.tensor ⟨0, [2], "float32", "A"⟩, Arg.buffer 5, Arg.var 7,
      Arg.tensor ⟨1, [2], "float32", "A"⟩] none).1
    [(0, BufSpec.declBuffer [2] "float32" "A"),
     (1, BufSpec.declBuffer [2] "float32" "A")]
    [BufSpec.declBuffer [2] "float32" "A", BufSpec.buffer 5, BufSpec.var 7,
     BufSpec.declBuffer [2] "float32" "A"] (by rfl)

lemma readCfg_ok (c : ConfigObj) (k : String) (v : CVal)
    (h : getAttr c k = some v) : readCfg c k = .ok v := by
  unfold readCfg
  rw [h]

lemma lower_congr (w1 w2 : World) (h : w1.curObj = w2.curObj)
    (sch : Sched) (args : List Arg) (name : String) (binds : Option Binds)
    (sm : Bool) :
    lower w1 sch args name binds sm = lower w2 sch args name binds sm := by
  unfold lower
  simp only [h]

lemma lower_unrollArgs (w : World) (sch : Sched) (args : List Arg)
    (name : String) (binds : Option Binds) (sm : Bool) (bb : Binds)
    (al : List BufSpec) (a b e : CVal)
    (hgb : get_binds args binds = .ok (bb, al))
    (ha : getAttr w.curObj "auto_unroll_max_step" = some a)
    (hb : getAttr w.curObj "auto_unroll_min_depth" = some b)
    (he : getAttr w.curObj "unroll_explicit" = some e) :
    ∃ r, lower w sch args name binds sm = .ok r ∧
      unrollArgsOf r = some (a, b, e) := by
  have r1 := readCfg_ok _ _ _ ha
  have r2 := readCfg_ok _ _ _ hb
  have r3 := readCfg_ok _ _ _ he
  cases sm with
  | true =>
    refine ⟨LoweredResult.stmt (IR.simplify (IR.unrollLoop
      (IR.storageRewrite (IR.injectVirtualThread (IR.vectorizeLoop
        (IR.canonicalSimplify (IR.storageFlatten
          (IR.scheduleOps (Sched.normalize sch) (Bounds.infer (Sched.normalize sch)))
          bb)))))
      a b e)), ?_, rfl⟩
    simp [lower, hgb, r1, r2, r3]
  | false =>
    refine ⟨LoweredResult.func (IR.makeAPI (IR.simplify (IR.unrollLoop
      (IR.storageRewrite (IR.injectVirtualThread (IR.vectorizeLoop
        (IR.loopPartition (IR.canonicalSimplify (IR.storageFlatten
          (IR.scheduleOps (Sched.normalize sch) (Bounds.infer (Sched.normalize sch)))
          bb))))))
      a b e)) name al 0), ?_, rfl⟩
    simp [lower, hgb, r1, r2, r3]

/-- C2: `build` rejects a schedule with no arguments, a lowered function
with (nonempty) arguments, and a first input that is neither; in each
case the result is the validation error itself (no lowering or codegen
work is reflected in the output). -/
theorem C2_build_input_validation :
    (∀ (w : World) (s : Sched) (target : String) (th : Option String)
        (name : String) (binds : Option Binds) (sp : IR → List IR)
        (en : String → Bool),
      build w (.sched s) none target th name binds sp en =
        .error "args must be given for build from schedule") ∧
    (∀ (w : World) (f : IR) (a : Arg) (rest : List Arg) (target : String)
        (th : Option String) (name : String) (binds : Option Binds)
        (sp : IR → List IR) (en : String → Bool),
      build w (.lowered f) (some (a :: rest)) target th name binds sp en =
        .error "args must be done when build from LoweredFunc") ∧
    (∀ (w : World) (o : Nat) (args : Option (List Arg)) (target : String)
        (th : Option String) (name : String) (binds : Option Binds)
        (sp : IR → List IR) (en : String → Bool),
      build w (.otherInput o) args target th name binds sp en =
        .error "sch have to be Schedule or LoweredFunc") := by
  refine ⟨?_, ?_, ?_⟩ <;> intros <;> rfl

/-- C3: after the lowered function is obtained, `build` applies the
global-memory synchronization pass exactly when the current
configuration's `detect_global_barrier` is truthy, always applies the
shared-memory synchronization pass on top, and lowers thread allreduce
with warp size 32 exactly when the target string is `"cuda"` (1 for
every other target); exhibited against the one-fragment splitter. -/
theorem C3_device_passes (w : World) (f : IR) (target : String)
    (th : Option String) (name : String) (binds : Option Binds)
    (en : String → Bool) :
    build w (.lowered f) none target th name binds (fun g => [g]) en =
      .ok (Module.cg [IR.lowerPackedCall
        (IR.lowerThreadAllreduce
          (IR.storageSync
            (if ((List.lookup "detect_global_barrier" (w.curObj).attr).getD
                  (CVal.bool true)).truthy
             then IR.storageSync f "global" else f)
            "shared")
          (if target = "cuda" then 32 else 1))] target) := by
  have r := readCfg_ok w.curObj "detect_global_barrier" _ (getAttr_dgb w.curObj)
  simp only [build, r]

/-- C4: `lower` with `simple_mode` skips loop partitioning entirely and
returns the bare simplified statement tree with no ABI wrapping, while
without `simple_mode` it applies loop partitioning and wraps the tree
via `MakeAPI` with the given name, the resolved argument list and
reserved-argument count zero. -/
theorem C4_lower_modes (w : World) (sch : Sched) (args : List Arg)
    (name : String) (binds : Option Binds) (bb : Binds) (al : List BufSpec)
    (hgb : get_binds args binds = .ok (bb, al)) (a b e : CVal)
    (ha : getAttr w.curObj "auto_unroll_max_step" = some a)
    (hb : getAttr w.curObj "auto_unroll_min_depth" = some b)
    (he : getAttr w.curObj "unroll_explicit" = some e) :
    lower w sch args name binds true =
      .ok (.stmt (IR.simplify (IR.unrollLoop
        (IR.storageRewrite (IR.injectVirtualThread (IR.vectorizeLoop
          (IR.canonicalSimplify (IR.storageFlatten
            (IR.scheduleOps (Sched.normalize sch) (Bounds.infer (Sched.normalize sch)))
            bb)))))
        a b e))) ∧
    lower w sch args name binds false =
      .ok (.func (IR.makeAPI (IR.simplify (IR.unrollLoop
        (IR.storageRewrite (IR.injectVirtualThread (IR.vectorizeLoop
          (IR.loopPartition (IR.canonicalSimplify (IR.storageFlatten
            (IR.scheduleOps (Sched.normalize sch) (Bounds.infer (Sched.normalize sch)))
            bb))))))
        a b e)) name al 0)) ∧
    (∀ r, lower w sch args name binds true = .ok r → hasLPRes r = false) := by
  have r1 := readCfg_ok _ _ _ ha
  have r2 := readCfg_ok _ _ _ hb
  have r3 := readCfg_ok _ _ _ he
  have h1 : lower w sch args name binds true =
      .ok (.stmt (IR.simplify (IR.unrollLoop
        (IR.storageRewrite (IR.injectVirtualThread (IR.vectorizeLoop
          (IR.canonicalSimplify (IR.storageFlatten
            (IR.scheduleOps (Sched.normalize sch) (Bounds.infer (Sched.normalize sch)))
            bb)))))
        a b e))) := by
    simp [lower, hgb, r1, r2, r3]
  refine ⟨h1, ?_, ?_⟩
  · simp [lower, hgb, r1, r2, r3]
  · intro r hr
    rw [h1] at hr
    simp only [Except.ok.injEq] at hr
    rw [← hr]
    rfl

/-- Witness for C4 at a concrete schedule and argument list over the
initial world. -/
theorem C4_lower_modes_witness :
    lower initWorld (Sched.handle 0) [Arg.buffer 3] "f" none true =
      .ok (.stmt (IR.simplify (IR.unrollLoop
        (IR.storageRewrite (IR.injectVirtualThread (IR.vectorizeLoop
          (IR.canonicalSimplify (IR.storageFlatten
            (IR.scheduleOps (Sched.normalize (Sched.handle 0))
              (Bounds.infer (Sched.normalize (Sched.handle 0))))
            [])))))
        (CVal.int 0) (CVal.int 1) (CVal.bool true)))) ∧
    lower initWorld (Sched.handle 0) [Arg.buffer 3] "f" none false =
      .ok (.func (IR.makeAPI (IR.simplify (IR.unrollLoop
        (IR.storageRewrite (IR.injectVirtualThread (IR.vectorizeLoop
          (IR.loopPartition (IR.canonicalSimplify (IR.storageFlatten
            (IR.scheduleOps (Sched.normalize (Sched.handle 0))
              (Bounds.infer (Sched.normalize (Sched.handle 0))))
            []))))))
        (CVal.int 0) (CVal.int 1) (CVal.bool true))) "f" [BufSpec.buffer 3] 0)) :=
  ⟨(C4_lower_modes initWorld (Sched.handle 0) [Arg.buffer 3] "f" none []
      [BufSpec.buffer 3] (by rfl) (CVal.int 0) (CVal.int 1) (CVal.bool true)
      (by decide) (by decide) (by decide)).1,
   (C4_lower_modes initWorld (Sched.handle 0) [Arg.buffer 3] "f" none []
      [BufSpec.buffer 3] (by rfl) (CVal.int 0) (CVal.int 1) (CVal.bool true)
      (by decide) (by decide) (by decide)).2.1⟩

/-- C5: the unroll step of `lower` is parameterized by the configuration
current at the moment it runs: inside a scope entered around the call
the scope's effective values (override, else enclosing value) govern
unrolling, and after the scope exits a subsequent `lower` call behaves
exactly as one under the restored enclosing configuration. -/
theorem C5_unroll_scoped (w : World) (ov : Attrs) (i : Nat) (w' : World)
    (hcur : w.cur < w.heap.length)
    (halloc : allocConfig w ov = .ok (i, w'))
    (sch : Sched) (args : List Arg) (name : String) (binds : Option Binds)
    (sm : Bool) (bb : Binds) (al : List BufSpec)
    (hgb : get_binds args binds = .ok (bb, al)) :
    (∀ a b e,
      getAttr ((enterScope w' i).curObj) "auto_unroll_max_step" = some a →
      getAttr ((enterScope w' i).curObj) "auto_unroll_min_depth" = some b →
      getAttr ((enterScope w' i).curObj) "unroll_explicit" = some e →
      ∃ r, lower (enterScope w' i) sch args name binds sm = .ok r ∧
        unrollArgsOf r = some (a, b, e)) ∧
    (∀ k, getAttr ((enterScope w' i).curObj) k =
      match List.lookup k ov with
      | some v => some v
      | none => getAttr w.curObj k) ∧
    (∃ w2, exitScope (enterScope w' i) i = .ok w2 ∧ w2.curObj = w.curObj ∧
      lower w2 sch args name binds sm = lower w sch args name binds sm) := by
  obtain ⟨hi, hw'⟩ := allocConfig_ok w ov i w' halloc
  refine ⟨?_, getAttr_enter_alloc w ov i w' hcur halloc, ?_⟩
  · intro a b e ha hb he
    exact lower_unrollArgs (enterScope w' i) sch args name binds sm bb al
      a b e hgb ha hb he
  · subst hi hw'
    have hle : w.heap.length <
        (World.heap ⟨w.heap ++ [⟨ov, none⟩], w.cur⟩).length := by simp
    have hcur2 : World.curObj ⟨(enterScope ⟨w.heap ++ [⟨ov, none⟩], w.cur⟩
        w.heap.length).heap, w.cur⟩ = w.curObj := by
      show heapGet (enterScope ⟨w.heap ++ [⟨ov, none⟩], w.cur⟩
          w.heap.length).heap w.cur = heapGet w.heap w.cur
      rw [heapGet_enter_ne _ _ _ (by omega)]
      exact heapGet_append_lt _ _ _ hcur
    refine ⟨⟨(enterScope ⟨w.heap ++ [⟨ov, none⟩], w.cur⟩ w.heap.length).heap,
      w.cur⟩, ?_, hcur2, ?_⟩
    · unfold exitScope
      rw [heapGet_enter_self _ _ hle]
    · exact lower_congr _ _ hcur2 sch args name binds sm

/-- Witness for C5: a scope overriding `auto_unroll_max_step := 8` about
`lower`; inside the scope the unroll step reads 8 (and the untouched
defaults 1/true), and after exit `lower` behaves as under the initial
configuration. -/
theorem C5_unroll_scoped_witness :
    (∃ r, lower (enterScope ⟨[cdef,
        ⟨[("auto_unroll_max_step", CVal.int 8)], none⟩], 0⟩ 1)
        (Sched.handle 0) [Arg.buffer 3] "f" none false = .ok r ∧
      unrollArgsOf r = some (CVal.int 8, CVal.int 1, CVal.bool true)) ∧
    (∃ w2, exitScope (enterScope ⟨[cdef,
        ⟨[("auto_unroll_max_step", CVal.int 8)], none⟩], 0⟩ 1) 1 = .ok w2 ∧
      w2.curObj = initWorld.curObj ∧
      lower w2 (Sched.handle 0) [Arg.buffer 3] "f" none false
        = lower initWorld (Sched.handle 0) [Arg.buffer 3] "f" none false) :=
  ⟨(C5_unroll_scoped initWorld [("auto_unroll_max_step", CVal.int 8)] 1
      ⟨[cdef, ⟨[("auto_unroll_max_step", CVal.int 8)], none⟩], 0⟩
      (by decide) (by rfl) (Sched.handle 0) [Arg.buffer 3] "f" none false
      [] [BufSpec.buffer 3] (by rfl)).1
    (CVal.int 8) (CVal.int 1) (CVal.bool true)
    (by decide) (by decide) (by decide),
   (C5_unroll_scoped initWorld [("auto_unroll_max_step", CVal.int 8)] 1
      ⟨[cdef, ⟨[("auto_unroll_max_step", CVal.int 8)], none⟩], 0⟩
      (by decide) (by rfl) (Sched.handle 0) [Arg.buffer 3] "f" none false
      [] [BufSpec.buffer 3] (by rfl)).2.2⟩

end TVMBuild
